import Mathlib

/-!
Verification of the Dymola result-file reader (`modelicares/_io/dymola.py`).

This development shallowly embeds the decoding pipeline of the source file:

* `Samples` / `Samples.values` — the lazy-negation value model;
* `parse_description` — the description / unit / display-unit string parser;
* `resolveRow` / `processRow` — the per-variable extraction of schema 1.1
  (`readsim`, lines 345-366), including Python's negative-index semantics;
* `decideTransposed` / `readBinaryLayout` — the binary layout normalization
  of `read` (lines 230-249);
* `assembleLin` / `readlinModel` — the A/B/C/D partitioning of `readlin`;
* `loadtxtModel` — the text scanner `loadtxt`;
* `readsimModel` — the composed `readsim` pipeline (result-kind check,
  version dispatch, trajectory scan, variable construction).

Sample values are modelled as rationals (`Rat`): the claims under study are
about which entries are selected, negated and scaled, not about floating
point rounding.  External services (scipy's `loadmat`, the `natu` unit
engine, the `control` state-space container) are modelled as parameters or
small tagged unions, following the boundary the source itself draws.
-/

deriving instance DecidableEq for Except

namespace Dymola

/-- A row-major two-dimensional matrix of rational sample values. -/
abbrev Mat := List (List Rat)

/-- Python sequence indexing: a nonnegative index counts from the front, a
negative index counts from the back, and an out-of-range index is an error
(`none`).  This is the semantics of `trajectories[data_set - 1]` and of
numpy column selection in the source. -/
def pyIdx {α : Type} (l : List α) (i : Int) : Option α :=
  if 0 ≤ i then l.get? i.toNat
  else if (-i).toNat ≤ l.length then l.get? (l.length - (-i).toNat)
  else none

/-- Column `j` of a matrix under Python index semantics (`m[:, j]` in the
source): the selection fails if the index is out of range in any row. -/
def matColI (m : Mat) (j : Int) : Option (List Rat) :=
  match m with
  | [] => some []
  | r :: rs => do
    let v ← pyIdx r j
    let tail ← matColI rs j
    pure (v :: tail)

/-- Column `j` of a matrix for a nonnegative index (`m[:, j]` with `j ≥ 0`). -/
def matColN (m : Mat) (j : Nat) : Option (List Rat) :=
  match m with
  | [] => some []
  | r :: rs => do
    let v ← r.get? j
    let tail ← matColN rs j
    pure (v :: tail)

/-- `Samples` namedtuple from the source: times, signed values, and the
deferred-negation flag. -/
structure Samples where
  times : List Rat
  signed_values : List Rat
  negated : Bool
deriving DecidableEq

/-- The `values` property of `Samples`:
`-self.signed_values if self.negated else self.signed_values`. -/
def Samples.values (S : Samples) : List Rat :=
  if S.negated then S.signed_values.map Neg.neg else S.signed_values

/-- A `Variable` as built by `readsim`: samples plus unit metadata.  The
dimension and display unit are `Option`s because the schema 1.0 branch emits
them as `None`. -/
structure VariableM where
  samples : Samples
  dimension : Option String
  display_unit : Option String
  description : String
deriving DecidableEq

/-! ### Python string primitives used by `parse_description` and `loadtxt` -/

/-- Python's `str.rstrip(c)` for a single strip character: drop every
trailing occurrence of `c`. -/
def rstripCharAll (c : Char) (s : String) : String :=
  ⟨((s.toList.reverse.dropWhile (fun x => x = c))).reverse⟩

/-- Python's `str.rstrip()` (no argument): drop trailing whitespace. -/
def pyRstripWS (s : String) : String :=
  ⟨((s.toList.reverse.dropWhile Char.isWhitespace)).reverse⟩

/-- Python's `str.rsplit(c, 1)`: split at the last occurrence of `c`,
returning the part before and the part after; `none` when `c` does not
occur (the source catches this as a `ValueError`). -/
def rsplitOnce (c : Char) (s : String) : Option (String × String) :=
  match s.toList.reverse.span (fun x => x ≠ c) with
  | (_, []) => none
  | (tailRev, _ :: headRev) => some (⟨headRev.reverse⟩, ⟨tailRev.reverse⟩)

/-- Python's `str.replace(pat, rep)` on character lists: leftmost,
non-overlapping occurrences, scanning left to right.  The `fuel` argument
only makes the recursion structural; every match consumes at least one
character, so with `fuel = l.length` the fuel never runs out.  An empty
pattern leaves the input unchanged (the source only uses non-empty
patterns). -/
def replaceCharsFuel (pat rep : List Char) : Nat → List Char → List Char
  | _, [] => []
  | 0, l => l
  | fuel + 1, x :: xs =>
    if pat ≠ [] ∧ pat.isPrefixOf (x :: xs) then
      rep ++ replaceCharsFuel pat rep fuel ((x :: xs).drop pat.length)
    else
      x :: replaceCharsFuel pat rep fuel xs

/-- Python's `str.replace(pat, rep)` on character lists. -/
def replaceChars (pat rep l : List Char) : List Char :=
  replaceCharsFuel pat rep l.length l

/-- Python's `str.replace` on strings. -/
def pyReplace (s pat rep : String) : String :=
  ⟨replaceChars pat.toList rep.toList s.toList⟩

/-- Result of `parse_description`: the normalized unit string (the string
handed to the external unit engine), the display unit, and the cleaned
description. -/
structure ParsedDescription where
  unitStr : String
  display_unit : String
  description : String
deriving DecidableEq

/-- `parse_description` from `readsim` (source lines 284-311), at the string
level.  The final conversion of the unit string by the external unit engine
(`U._units(**Exponents(unit))`) is outside this model; `unitStr` is the
string that conversion receives. -/
def parse_description (d : String) : ParsedDescription :=
  let d0 := rstripCharAll ']' d
  match rsplitOnce '[' d0 with
  | none => ⟨"", "", pyRstripWS d0⟩
  | some (desc, u0) =>
    let u1 := pyReplace (pyReplace u0 "." "*") "Ohm" "ohm"
    match rsplitOnce '|' u1 with
    | none => ⟨u1, u1, pyRstripWS desc⟩
    | some (u2, dU) => ⟨u2, if dU = "" then u2 else dU, pyRstripWS desc⟩

/-! ### The external `natu` unit engine, as seen by `readsim`

`readsim` only probes the unit object for `_value` (a scalar factor),
falling back on `AttributeError` to the `LambdaUnit` protocol
(`_toquantity(n)._value`, applied element-wise), and reads `.dimension`.
That boundary is modelled as a tagged union. -/

/-- A unit object returned by the external unit engine: either a linear
unit exposing a scale factor `_value`, or a `LambdaUnit` exposing only a
nonlinear element-wise transform. `dim` models `.dimension`. -/
inductive NatuUnit where
  | linear (scale : Rat) (dim : String)
  | lambdaUnit (f : Rat → Rat) (dim : String)

/-- The `.dimension` attribute of a unit object. -/
def NatuUnit.dim : NatuUnit → String
  | .linear _ d => d
  | .lambdaUnit _ d => d

/-! ### Per-variable extraction in `readsim`, schema 1.1 -/

/-- Source lines 351-354: from a `dataInfo` row `(data_set, sign_col)`,
compute the negation flag, select the trajectory matrix
(`trajectories[data_set - 1]`, Python indexing), the signed value column
(`traj[:, (-sign_col if negated else sign_col) - 1]`), and the time column
(`traj[:, 0]`). -/
def resolveRow (trajectories : List Mat) (data_set sign_col : Int) :
    Option (List Rat × List Rat × Bool) := do
  let negated := decide (sign_col < 0)
  let traj ← pyIdx trajectories (data_set - 1)
  let sv ← matColI traj ((if sign_col < 0 then -sign_col else sign_col) - 1)
  let times ← matColI traj 0
  pure (times, sv, negated)

/-- Source lines 351-366: `resolveRow` followed by the unit application.
A linear unit's scale factor is applied when it differs from 1 (in the
source this is an in-place `*=`).  For a `LambdaUnit` (the
`AttributeError` branch) the negation is materialized first, the flag is
cleared, and the nonlinear transform is applied element-wise. -/
def processRow (trajectories : List Mat) (uni : NatuUnit)
    (data_set sign_col : Int) : Option Samples := do
  let (times, sv, negated) ← resolveRow trajectories data_set sign_col
  match uni with
  | .linear scale _ =>
    pure ⟨times, if scale ≠ 1 then sv.map (fun v => v * scale) else sv, negated⟩
  | .lambdaUnit f _ =>
    let sv := if negated then sv.map Neg.neg else sv
    pure ⟨times, sv.map f, false⟩

/-- Multiply the first entry of a row by `c` (`traj[:, 0] *= c`). -/
def scaleHead (c : Rat) : List Rat → List Rat
  | [] => []
  | t :: r => (t * c) :: r

/-- Scale the time column (column 0) of a trajectory matrix in place. -/
def scaleCol0 (c : Rat) (m : Mat) : Mat :=
  m.map (scaleHead c)

/-- Source lines 335-343: probe `data_1`, `data_2`, ... until the first
missing index, scaling each trajectory's time column by the value of the
unit `second` when that value differs from 1.  The probe is bounded by
`fuel` (the file holds finitely many matrices; the source's `count(1)`
loop stops at the first `KeyError`). -/
def scanTraj (secondValue : Rat) (lookup : Nat → Option Mat) :
    Nat → Nat → List Mat
  | 0, _ => []
  | fuel + 1, i =>
    match lookup i with
    | none => []
    | some m =>
      (if secondValue ≠ 1 then scaleCol0 secondValue m else m)
        :: scanTraj secondValue lookup fuel (i + 1)

/-! ### Result-kind checks and the composed `readsim` pipeline -/

/-- Source lines 317-321: `readsim` rejects a linearization result
("Use LinRes instead") and any result kind other than `Atrajectory`. -/
def checkSimResultKind (kind : String) : Except String Unit :=
  if kind = "AlinearSystem" then
    .error "is a linearization result.  Use LinRes instead."
  else if kind = "Atrajectory" then
    .ok ()
  else
    .error "is not a simulation or linearization result."

/-- Source lines 452-455: `readlin` rejects a simulation result
("Use SimRes instead") and any result kind other than `AlinearSystem`. -/
def checkLinResultKind (kind : String) : Except String Unit :=
  if kind = "Atrajectory" then
    .error "is a simulation result.  Use SimRes instead."
  else if kind = "AlinearSystem" then
    .ok ()
  else
    .error "is not a simulation or linearization result."

/-- Build one `Variable` of the schema 1.1 branch (source lines 347-366):
parse the description, resolve the unit through the external engine
`uenv`, extract and scale the samples. -/
def buildVariable (uenv : String → NatuUnit) (trajectories : List Mat)
    (desc : String) (row : Int × Int) : Except String VariableM :=
  let pd := parse_description desc
  let uni := uenv pd.unitStr
  match processRow trajectories uni row.1 row.2 with
  | none => .error "IndexError"
  | some samp => .ok ⟨samp, some uni.dim, some pd.display_unit, pd.description⟩

/-- The composed `readsim` (source lines 313-382), after the black-box
file load: result-kind check, version dispatch, trajectory scan and
variable construction.  External inputs are the `Aclass` lines, the value
and dimension of the unit `second`, the unit engine `uenv`, the `name`,
`description` and `dataInfo` matrices, the `data_i` family (`lookupData`,
probed with `fuel`), and — for schema 1.0 — the `names` list and `data`
matrix.  The name→variable dictionary is modelled as an association list
in construction order (no claim depends on duplicate-key overwriting).
The schema 1.0 branch reaches `times = traj[:, 0]*s._value` and fails:
the module imports bind the unit only as `second`, so the name `s` is
unbound there. -/
def readsimModel (Aclass : List String) (secondValue : Rat)
    (secondDim : String) (uenv : String → NatuUnit)
    (names descriptions : List String) (dataInfo : List (Int × Int))
    (lookupData : Nat → Option Mat) (fuel : Nat)
    (namesV10 : List String) (dataV10 : Option Mat) :
    Except String (List (String × VariableM)) := do
  let kind ← match Aclass.get? 0 with
    | none => Except.error "IndexError: Aclass is empty"
    | some k => Except.ok k
  checkSimResultKind kind
  let version ← match Aclass.get? 1 with
    | none => Except.error "IndexError: Aclass has one line"
    | some v => Except.ok v
  if version = "1.1" then
    let trajectories := scanTraj secondValue lookupData fuel 1
    let vars ← (descriptions.zip dataInfo).mapM
        (fun p => buildVariable uenv trajectories p.1 p.2)
    match vars.getLast? with
    | none => Except.error "NameError: name times is not defined"
    | some lastV =>
      let timesL := lastV.samples.times
      Except.ok ((names.zip vars) ++
        [("Time", ⟨⟨timesL, timesL, false⟩, some secondDim, some "s", "Time"⟩)])
  else if version = "1.0" then
    match dataV10 with
    | none => Except.error "KeyError: data"
    | some traj =>
      match matColN traj 0 with
      | none => Except.error "IndexError"
      | some _ =>
        let _ := namesV10
        Except.error "NameError: name s is not defined"
  else
    Except.error "AssertionError: unsupported version"

/-! ### Binary layout normalization in `read` (source lines 224-257) -/

/-- `get_strings` on one row of a character array: strip trailing spaces
and NUL characters (`line.rstrip(' \0')`).  The latin-1/utf-8 recoding of
the source is the identity at this level of modelling. -/
def rstripCharRow (row : List Char) : String :=
  ⟨(row.reverse.dropWhile (fun c => c = ' ' ∨ c = Char.ofNat 0)).reverse⟩

/-- `get_strings`: a character matrix to a list of stripped strings. -/
def get_strings (a : List (List Char)) : List String :=
  a.map rstripCharRow

/-- A matrix as loaded from a binary file: either a character array
(dtype `<U1`) or a numeric array. -/
inductive RawMat where
  | charM (a : List (List Char))
  | numM (m : Mat)
deriving DecidableEq

/-- A matrix after `read`'s normalization: character arrays have become
string lists, numeric arrays are re-oriented. -/
inductive NormMat where
  | strs (l : List String)
  | numM (m : Mat)
deriving DecidableEq

/-- Source lines 233-242: the binary orientation flag.  `Aclass[3]` is
compared with `"binTrans"`; an `IndexError` (fewer than 4 lines) defaults
to the normal layout; a present fourth line that is neither `"binTrans"`
nor `"binNormal"` trips the assertion. -/
def decideTransposed (Aclass : List String) : Except String Bool :=
  match Aclass.get? 3 with
  | none => .ok false
  | some tag =>
    if tag = "binTrans" then .ok true
    else if tag = "binNormal" then .ok false
    else .error "AssertionError: the orientation of the results is not recognized"

/-- The layout rule as the claim states it (for comparison with
`decideTransposed`): the layout read from element index 2 of `Aclass`,
defaulting to normal when absent, failing when present and unrecognized. -/
def decideTransposedClaim (Aclass : List String) : Except String Bool :=
  match Aclass.get? 2 with
  | none => .ok false
  | some tag =>
    if tag = "binTrans" then .ok true
    else if tag = "binNormal" then .ok false
    else .error "AssertionError: the orientation of the results is not recognized"

/-- Source lines 245-249: one matrix under the binary normalization.
Character arrays are re-oriented (when transposed) before string
conversion; numeric matrices are transposed when the layout is
transposed. -/
def normalizeEntry (transposed : Bool) : RawMat → NormMat
  | .charM a => .strs (get_strings (if transposed then a.transpose else a))
  | .numM m => .numM (if transposed then m.transpose else m)

/-- The binary branch of `read` after the `Aclass` pop: decide the layout
from the `Aclass` lines and normalize every loaded matrix. -/
def readBinaryLayout (Aclass : List String) (entries : List (String × RawMat)) :
    Except String (List (String × NormMat)) := do
  let tr ← decideTransposed Aclass
  pure (entries.map (fun p => (p.1, normalizeEntry tr p.2)))

/-! ### `readlin` (source lines 414-477) -/

/-- The state-space container assembled by `readlin`. -/
structure LinSys where
  A : Mat
  B : Mat
  C : Mat
  D : Mat
  state_names : List String
  input_names : List String
  output_names : List String
deriving DecidableEq

/-- Source lines 458-475: partition `ABCD` into the A/B/C/D blocks and
the `xuyName` list into state/input/output names.  `nu` and `ny` are
integer differences as in the source; `[[]]` stands for the empty matrix
the source supplies when a block is degenerate.  Python slices
`m[:nx]`/`m[nx:]` are `take`/`drop`; `xuyName[nx:nx+nu]` is
`take (nx+nu)` then `drop nx`. -/
def assembleLin (ABCD : Mat) (nx : Nat) (xuyName : List String) : LinSys :=
  let rows := ABCD.length
  let cols := (ABCD.headD []).length
  let nu : Int := (cols : Int) - (nx : Int)
  let ny : Int := (rows : Int) - (nx : Int)
  { A := if 0 < nx then (ABCD.take nx).map (fun r => r.take nx) else [[]]
    B := if 0 < nx ∧ 0 < nu then (ABCD.take nx).map (fun r => r.drop nx) else [[]]
    C := if 0 < nx ∧ 0 < ny then (ABCD.drop nx).map (fun r => r.take nx) else [[]]
    D := if 0 < nu ∧ 0 < ny then (ABCD.drop nx).map (fun r => r.drop nx) else [[]]
    state_names := xuyName.take nx
    input_names := (xuyName.take ((nx : Int) + nu).toNat).drop nx
    output_names := xuyName.drop ((nx : Int) + nu).toNat }

/-- The composed `readlin` after the black-box load: result-kind check,
then assembly of the linear system. -/
def readlinModel (Aclass : List String) (ABCD : Mat) (nx : Nat)
    (xuyName : List String) : Except String LinSys := do
  let kind ← match Aclass.get? 0 with
    | none => Except.error "IndexError: Aclass is empty"
    | some k => Except.ok k
  checkLinResultKind kind
  pure (assembleLin ABCD nx xuyName)

/-! ### The text scanner `loadtxt` (source lines 125-187) -/

/-- Numeric value of a digit list (most significant first). -/
def digitsVal (cs : List Char) : Nat :=
  cs.foldl (fun n c => 10 * n + (c.toNat - 48)) 0

/-- Parse one token as Python's `float` does for the inputs `np.fromstring`
accepts: optional sign, integer digits, optional fraction. -/
def parseRatToken (s : String) : Option Rat :=
  let p : Bool × List Char :=
    match s.toList with
    | '-' :: r => (true, r)
    | '+' :: r => (false, r)
    | r => (false, r)
  let sgn := fun (v : Rat) => if p.1 then -v else v
  let ipRest := p.2.span Char.isDigit
  match ipRest.2 with
  | [] => if ipRest.1 = [] then none else some (sgn (digitsVal ipRest.1))
  | '.' :: r2 =>
    let fpRest := r2.span Char.isDigit
    if fpRest.2 = [] ∧ (ipRest.1 ≠ [] ∨ fpRest.1 ≠ []) then
      some (sgn ((digitsVal ipRest.1 : Rat) +
        (digitsVal fpRest.1 : Rat) / ((10 : Rat) ^ fpRest.1.length)))
    else none
  | _ => none

/-- Split a character list into space-separated tokens. -/
def tokenizeAux (cur : List Char) : List Char → List String
  | [] => if cur = [] then [] else [⟨cur.reverse⟩]
  | c :: rest =>
    if c = ' ' then
      if cur = [] then tokenizeAux [] rest
      else ⟨cur.reverse⟩ :: tokenizeAux [] rest
    else tokenizeAux (c :: cur) rest

/-- `np.fromstring(s, float, sep=' ')`: parse space-separated values,
stopping (leniently, as numpy does) at the first unparsable token. -/
def fromstringRat (s : String) : List Rat :=
  let rec greedy : List String → List Rat
    | [] => []
    | t :: ts =>
      match parseRatToken t with
      | none => []
      | some v => v :: greedy ts
  greedy (tokenizeAux [] s.toList)

/-- `np.fromstring(s, int, sep=' ')`: the integer variant. -/
def fromstringInt (s : String) : List Int :=
  let rec greedy : List String → List Int
    | [] => []
    | t :: ts =>
      match t.toInt? with
      | none => []
      | some v => v :: greedy ts
  greedy (tokenizeAux [] s.toList)

/-- `line.split('#')[0]`: drop an inline comment. -/
def stripComment (s : String) : String :=
  ⟨s.toList.takeWhile (fun c => c ≠ '#')⟩

/-- A parsed `loadtxt` value: a string list, a float matrix, or an int
matrix, mirroring the three entries of the `PARSERS` dict. -/
inductive TxtVal where
  | chars (rows : List String)
  | floats (m : List (List Rat))
  | ints (m : List (List Int))
deriving DecidableEq

/-- A word character of the `\w` class in the definition-line pattern. -/
def isWordChar (c : Char) : Bool :=
  c.isAlphanum || c = '_'

/-- The `SPLIT_DEFINITION` pattern
`(\w*) *(\w*) *\( *(\d*) *, *(\d*) *\)`, matched from the start of the
line: type word, name, row count and column count (the digit groups are
returned as strings; the source only converts `nrows`). -/
def matchDefLine (s : String) : Option (String × String × String × String) :=
  let l0 := s.toList
  let p1 := l0.span isWordChar
  let p2 := (p1.2.dropWhile (fun c => c = ' ')).span isWordChar
  match p2.2.dropWhile (fun c => c = ' ') with
  | '(' :: l3 =>
    let p4 := (l3.dropWhile (fun c => c = ' ')).span Char.isDigit
    match p4.2.dropWhile (fun c => c = ' ') with
    | ',' :: l5 =>
      let p6 := (l5.dropWhile (fun c => c = ' ')).span Char.isDigit
      match p6.2.dropWhile (fun c => c = ' ') with
      | ')' :: _ => some (⟨p1.1⟩, ⟨p2.1⟩, ⟨p4.1⟩, ⟨p6.1⟩)
      | _ => none
    | _ => none
  | _ => none

/-- Apply the `PARSERS` entry for the type word to the data lines:
`char` strips each line; `float` strips comments, parses and transposes
(`np.array([...]).T`); `int` strips comments and parses without the
transposition.  `none` models the `KeyError` for an unknown type word. -/
def applyTxtParser (ty : String) (rows : List String) : Option TxtVal :=
  if ty = "char" then some (.chars (rows.map pyRstripWS))
  else if ty = "float" then
    some (.floats ((rows.map (fun l => fromstringRat (stripComment l))).transpose))
  else if ty = "int" then
    some (.ints (rows.map (fun l => fromstringInt (stripComment l))))
  else none

/-- Is a variable selected for reading (`variable_names is None or name in
variable_names`)? -/
def selectedName (variable_names : Option (List String)) (n : String) : Bool :=
  match variable_names with
  | none => true
  | some vs => vs.contains n

/-- Modelled from the spec: the `next_nonblank` helper lives in the
utilities module, which is not under `src/`; the spec treats the text
format as a line-oriented scanner whose variable-definition lines are the
next lines carrying text.  A line is taken as blank when it holds only
whitespace. -/
def isBlankLine (s : String) : Bool :=
  s.toList.all Char.isWhitespace

/-- The collection loop of `loadtxt` (source lines 162-187): find the next
definition line, parse it, and either parse or skip the declared number of
data lines.  `fuel` only makes the recursion structural; every step
consumes at least one line, so with `fuel` at least the number of lines it
never runs out. -/
def loadtxtLoop (variable_names : Option (List String)) :
    Nat → List String → Except String (List (String × TxtVal))
  | _, [] => .ok []
  | 0, _ => .error "fuel exhausted"
  | fuel + 1, line :: rest =>
    if isBlankLine line then loadtxtLoop variable_names fuel rest
    else
      match matchDefLine line with
      | none => .error "AttributeError: the definition line does not match"
      | some (ty, nameV, nrS, _) =>
        if nrS = "" then .error "ValueError: invalid literal for int()"
        else
          let nr := digitsVal nrS.toList
          if selectedName variable_names nameV then
            match applyTxtParser ty (rest.take nr) with
            | none => .error ("KeyError: Unknown variable type: " ++ ty)
            | some v =>
              if rest.length < nr then .error "ValueError: Unexpected end of file"
              else
                match loadtxtLoop variable_names fuel (rest.drop nr) with
                | .error e => .error e
                | .ok tail => .ok ((nameV, v) :: tail)
          else
            if rest.length < nr then .error "StopIteration"
            else loadtxtLoop variable_names fuel (rest.drop nr)

/-- `loadtxt`: skip the header lines, then run the collection loop over
the remaining lines of the file. -/
def loadtxtModel (skip_header : Nat) (variable_names : Option (List String))
    (lines : List String) : Except String (List (String × TxtVal)) :=
  if lines.length < skip_header then .error "StopIteration"
  else loadtxtLoop variable_names (lines.drop skip_header).length
    (lines.drop skip_header)

/-! ### The schema 1.0 branch as intended, and the module name environment -/

/-- The names bound at module scope in `dymola.py` (imports on source
lines 57-71 and the module-level definitions).  The schema 1.0 branch
(line 376) evaluates the name `s`, which is bound neither here nor among
the locals of `readsim`: the import on line 65 binds the unit under the
name `second` instead. -/
def dymolaModuleBindings : List String :=
  ["np", "re", "namedtuple", "ss", "count", "U", "Exponents", "second",
   "loadmat", "chars_to_strings", "PY2", "Variable", "next_nonblank",
   "Samples", "get_strings", "loadtxt", "read", "readsim", "readlin"]

/-- Pair each name of `names`, in order, with its matrix column, starting
from column `i`: the dict comprehension of the schema 1.0 branch. -/
def buildV10 (times : List Rat) (traj : Mat) :
    Nat → List String → Option (List (String × VariableM))
  | _, [] => some []
  | i, n :: rest => do
    let ci ← matColN traj i
    let tail ← buildV10 times traj (i + 1) rest
    pure ((n, ⟨⟨times, ci, false⟩, none, none, ""⟩) :: tail)

/-- Modelled from the spec: the schema 1.0 branch of `readsim` as
specified (source lines 374-379).  The source line 376,
`times = traj[:, 0]*s._value`, evaluates the unbound name `s`; the spec's
time-unit ratio is the value of the unit bound as `second`, used here.
Each name of `names` is paired 1:1, in order, with a column of the single
`data` matrix; the time column is scaled; dimension and display unit are
emitted as unknown (`None`) and the negation flag is always false. -/
def readsimV10Intended (secondValue : Rat) (names : List String)
    (traj : Mat) : Option (List (String × VariableM)) := do
  let t0 ← matColN traj 0
  buildV10 (t0.map (fun x => x * secondValue)) traj 0 names

/-- Entry `(i, j)` of a matrix (0-based, `none` when out of range): used
to state where the A/B/C/D blocks of `readlin` sit inside `ABCD`. -/
def matEntry (m : Mat) (i j : Nat) : Option Rat :=
  (m.get? i).bind (fun r => r.get? j)

/-! ## Helper lemmas -/

/-- Python index `-1` selects the last element. -/
theorem pyIdx_neg_one {α : Type} (l : List α) : pyIdx l (-1) = l.getLast? := by
  unfold pyIdx
  rw [if_neg (by decide : ¬ (0 ≤ (-1 : Int)))]
  have h1 : ((-(-1 : Int))).toNat = 1 := by decide
  rw [h1]
  cases l with
  | nil => simp
  | cons x xs =>
    rw [if_pos (by simp), List.getLast?_eq_getElem?, List.get?_eq_getElem?]

/-- The branch expression of source line 353 computes the absolute value
of the sign column. -/
theorem sign_branch_eq_abs (sign_col : Int) :
    (if sign_col < 0 then -sign_col else sign_col) = |sign_col| := by
  rcases lt_or_ge sign_col 0 with hlt | hge
  · rw [if_pos hlt, abs_of_neg hlt]
  · rw [if_neg (not_lt.mpr hge), abs_of_nonneg hge]

/-- Bind on a successful `Except` computation. -/
theorem except_ok_bind {ε α β : Type} (a : α) (f : α → Except ε β) :
    (Except.ok a : Except ε α) >>= f = f a := rfl

/-- Bind short-circuits on a failed `Except` computation. -/
theorem except_error_bind {ε α β : Type} (e : ε) (f : α → Except ε β) :
    (Except.error e : Except ε α) >>= f = .error e := rfl

/-! ## Claims -/

/-- C2: for every `Samples`, the derived `values` property is the
element-wise negation of `signed_values` when `negated` is set and is
`signed_values` unchanged otherwise; the values of `(t, v, true)` are the
element-wise negation of the values of `(t, v, false)`; and in both cases
the stored `signed_values` field is the very list `v` that was passed in
(no negated copy is stored in the `Samples`). -/
theorem samples_values_lazy_negation (t v : List Rat) :
    (Samples.mk t v true).values = ((Samples.mk t v false).values).map Neg.neg ∧
    (Samples.mk t v true).values = v.map Neg.neg ∧
    (Samples.mk t v false).values = v ∧
    (Samples.mk t v true).signed_values = v ∧
    (Samples.mk t v false).signed_values = v :=
  ⟨rfl, rfl, rfl, rfl, rfl⟩

/-- C1: in the schema 1.1 row decoding of `readsim`, whenever a `dataInfo`
row `(data_set, sign_col)` resolves, the negation flag is
`sign_col < 0`, the trajectory matrix is `trajectories[data_set - 1]`,
the signed values are the column with 0-based index `abs(sign_col) - 1`
of that matrix, and the times are its column 0. -/
theorem readsim_row_sign_decoding (trajectories : List Mat)
    (data_set sign_col : Int) (times sv : List Rat) (negated : Bool)
    (h : resolveRow trajectories data_set sign_col = some (times, sv, negated)) :
    negated = decide (sign_col < 0) ∧
    ∃ traj, pyIdx trajectories (data_set - 1) = some traj ∧
      matColI traj (|sign_col| - 1) = some sv ∧
      matColI traj 0 = some times := by
  unfold resolveRow at h
  rw [sign_branch_eq_abs] at h
  simp only [Option.bind_eq_bind, Option.bind_eq_some, Option.pure_def,
    Option.some.injEq, Prod.mk.injEq] at h
  obtain ⟨traj, htraj, sv', hsv, t', ht, heq1, heq2, heq3⟩ := h
  subst heq1
  subst heq2
  subst heq3
  exact ⟨rfl, traj, htraj, hsv, ht⟩

/-- Witness for C1 at a concrete negative sign column. -/
theorem readsim_row_sign_decoding_witness :
    (true = decide ((-2 : Int) < 0)) ∧
    ∃ traj, pyIdx [[[0, 1], [2, 3]]] ((1 : Int) - 1) = some traj ∧
      matColI traj (|(-2 : Int)| - 1) = some [1, 3] ∧
      matColI traj 0 = some [0, 2] :=
  readsim_row_sign_decoding [[[0, 1], [2, 3]]] 1 (-2) [0, 2] [1, 3] true
    (by decide)

/-- Column `-1` of a matrix selects the last entry of every row. -/
theorem matColI_neg_one (m : Mat) :
    matColI m (-1) = m.mapM List.getLast? := by
  induction m with
  | nil => rfl
  | cons r rs ih =>
    simp only [matColI, pyIdx_neg_one, ih, List.mapM_cons]

/-- C10: a `dataInfo` row whose sign column is 0 resolves without any
index or shape error to the LAST column of the trajectory matrix (the
computed index `0 - 1 = -1` wraps, and `negated = (0 < 0)` is false), and
a row whose data-set entry is 0 resolves against the LAST trajectory
matrix of the scanned family (`trajectories[0 - 1]` wraps to the last
element). -/
theorem readsim_zero_indices_wrap (trajectories : List Mat) (ds sc : Int)
    (traj lastTraj : Mat) (times sv timesL svL : List Rat)
    (hds : pyIdx trajectories (ds - 1) = some traj)
    (hlast : trajectories.getLast? = some lastTraj)
    (ht : matColI traj 0 = some times)
    (hsv : matColI traj (-1) = some sv)
    (htL : matColI lastTraj 0 = some timesL)
    (hsvL : matColI lastTraj (|sc| - 1) = some svL) :
    traj.mapM List.getLast? = some sv ∧
    resolveRow trajectories ds 0 = some (times, sv, false) ∧
    pyIdx trajectories ((0 : Int) - 1) = trajectories.getLast? ∧
    resolveRow trajectories 0 sc = some (timesL, svL, decide (sc < 0)) := by
  have hwrap : pyIdx trajectories ((0 : Int) - 1) = trajectories.getLast? := by
    rw [(by decide : (0 : Int) - 1 = -1), pyIdx_neg_one]
  refine ⟨matColI_neg_one traj ▸ hsv, ?_, hwrap, ?_⟩
  · unfold resolveRow
    have hidx : ((if (0 : Int) < 0 then -(0 : Int) else 0) - 1) = -1 := by decide
    rw [hds]
    simp [hidx, hsv, ht]
  · unfold resolveRow
    rw [hwrap, hlast, sign_branch_eq_abs]
    simp [hsvL, htL]

/-- Witness for C10: two trajectory matrices; the row `(2, 0)` takes the
last column of the second matrix, the row `(0, 1)` takes the first column
of the last matrix. -/
theorem readsim_zero_indices_wrap_witness :
    ([[4, 5, 6], [7, 8, 9]] : Mat).mapM List.getLast? = some [6, 9] ∧
    resolveRow [[[0, 1], [2, 3]], [[4, 5, 6], [7, 8, 9]]] 2 0 =
      some ([4, 7], [6, 9], false) ∧
    pyIdx [[[0, 1], [2, 3]], [[4, 5, 6], [7, 8, 9]]] ((0 : Int) - 1) =
      ([[[0, 1], [2, 3]], [[4, 5, 6], [7, 8, 9]]] : List Mat).getLast? ∧
    resolveRow [[[0, 1], [2, 3]], [[4, 5, 6], [7, 8, 9]]] 0 1 =
      some ([4, 7], [4, 7], decide ((1 : Int) < 0)) :=
  readsim_zero_indices_wrap [[[0, 1], [2, 3]], [[4, 5, 6], [7, 8, 9]]] 2 1
    [[4, 5, 6], [7, 8, 9]] [[4, 5, 6], [7, 8, 9]] [4, 7] [6, 9] [4, 7] [4, 7]
    (by decide) (by decide) (by decide) (by decide) (by decide) (by decide)

/-- C4: once a `dataInfo` row resolves, a `LambdaUnit` (a unit with no
simple scale factor) makes `readsim` materialize the negation into the
signed values, clear the negated flag, and apply the nonlinear transform
element-wise — so the resulting `Samples` always has `negated = false`;
a linear unit with scale factor different from 1 multiplies the signed
values element-wise and keeps the flag, and a scale factor of 1 leaves
the signed values untouched. -/
theorem readsim_lambda_unit_clears_negation (trajectories : List Mat)
    (ds sc : Int) (times sv : List Rat) (n : Bool) (f : Rat → Rat)
    (dimL dimS : String) (scale : Rat) (hscale : scale ≠ 1)
    (h : resolveRow trajectories ds sc = some (times, sv, n)) :
    processRow trajectories (.lambdaUnit f dimL) ds sc =
      some ⟨times, (if n then sv.map Neg.neg else sv).map f, false⟩ ∧
    processRow trajectories (.linear scale dimS) ds sc =
      some ⟨times, sv.map (fun v => v * scale), n⟩ ∧
    processRow trajectories (.linear 1 dimS) ds sc =
      some ⟨times, sv, n⟩ := by
  unfold processRow
  rw [h]
  refine ⟨rfl, ?_, ?_⟩
  · simp [hscale]
  · simp

/-- Witness for C4 at a negated concrete row, a shifting lambda unit and
the linear scale 2. -/
theorem readsim_lambda_unit_clears_negation_witness :
    processRow [[[0, 2], [1, 4]]] (.lambdaUnit (fun v => v + 1) "L") 1 (-2) =
      some ⟨[0, 1], (if true then ([2, 4] : List Rat).map Neg.neg
        else [2, 4]).map (fun v => v + 1), false⟩ ∧
    processRow [[[0, 2], [1, 4]]] (.linear 2 "S") 1 (-2) =
      some ⟨[0, 1], ([2, 4] : List Rat).map (fun v => v * 2), true⟩ ∧
    processRow [[[0, 2], [1, 4]]] (.linear 1 "S") 1 (-2) =
      some ⟨[0, 1], [2, 4], true⟩ :=
  readsim_lambda_unit_clears_negation [[[0, 2], [1, 4]]] 1 (-2) [0, 1] [2, 4]
    true (fun v => v + 1) "L" "S" 2 (by decide) (by decide)

/-- C9: `readsim` fails when the `Aclass` result kind is
`"AlinearSystem"` (directing the caller to the linearization reader) and
fails naming an unknown result kind when the tag is neither
`"Atrajectory"` nor `"AlinearSystem"`; symmetrically, `readlin` fails
when the result kind is `"Atrajectory"`.  In every such case the whole
call returns the error — no partial result. -/
theorem result_kind_rejection (Aclass : List String) (kind : String)
    (secondValue : Rat) (secondDim : String) (uenv : String → NatuUnit)
    (names descriptions : List String) (dataInfo : List (Int × Int))
    (lookupData : Nat → Option Mat) (fuel : Nat) (namesV10 : List String)
    (dataV10 : Option Mat) (ABCD : Mat) (nx : Nat) (xuyName : List String)
    (h0 : Aclass.get? 0 = some kind) :
    (kind = "AlinearSystem" →
      readsimModel Aclass secondValue secondDim uenv names descriptions
          dataInfo lookupData fuel namesV10 dataV10 =
        .error "is a linearization result.  Use LinRes instead.") ∧
    (kind ≠ "AlinearSystem" → kind ≠ "Atrajectory" →
      readsimModel Aclass secondValue secondDim uenv names descriptions
          dataInfo lookupData fuel namesV10 dataV10 =
        .error "is not a simulation or linearization result.") ∧
    (kind = "Atrajectory" →
      readlinModel Aclass ABCD nx xuyName =
        .error "is a simulation result.  Use SimRes instead.") := by
  refine ⟨?_, ?_, ?_⟩
  · intro hk
    subst hk
    unfold readsimModel
    rw [h0]
    simp only [except_ok_bind, checkSimResultKind]
    simp only [if_true, except_error_bind]
  · intro h1 h2
    unfold readsimModel
    rw [h0]
    simp only [except_ok_bind, checkSimResultKind]
    rw [if_neg h1, if_neg h2]
    simp only [except_error_bind]
  · intro hk
    subst hk
    unfold readlinModel
    rw [h0]
    simp only [except_ok_bind, checkLinResultKind]
    simp only [if_true, except_error_bind, Except.map_error]

/-- Witness for C9 with an unrecognized result kind. -/
theorem result_kind_rejection_witness :
    readsimModel ["Amystery", "1.1"] 1 "T" (fun _ => .linear 1 "") [] [] []
        (fun _ => none) 0 [] none =
      .error "is not a simulation or linearization result." :=
  (result_kind_rejection ["Amystery", "1.1"] "Amystery" 1 "T"
    (fun _ => .linear 1 "") [] [] [] (fun _ => none) 0 [] none [[1]] 1 ["x"]
    (by decide)).2.1 (by decide) (by decide)

/-- C3, counterexample: on the `Aclass` sequence
`["Atrajectory", "1.1", "", "binTrans"]` — a sequence whose element at
index 2 is present and is neither `"binNormal"` nor `"binTrans"` — the
claim predicts a format error, but the code reads the layout from element
index 3 and happily transposes. -/
theorem read_layout_index_counterexample :
    decideTransposed ["Atrajectory", "1.1", "", "binTrans"] = .ok true ∧
    decideTransposedClaim ["Atrajectory", "1.1", "", "binTrans"] =
      .error "AssertionError: the orientation of the results is not recognized" ∧
    decideTransposed ["Atrajectory", "1.1", "binTrans"] = .ok false := by
  refine ⟨by decide, by decide, by decide⟩

/-- C3 (amended): the binary layout is determined from element index 3 of
the `Aclass` sequence (the fourth string): if that element is absent the
layout defaults to normal (no transposition); if it is present and is
neither `"binNormal"` nor `"binTrans"` the call fails with a
FormatError-class error; if it is `"binTrans"` every non-character matrix
is transposed and character matrices are re-oriented before string
conversion. -/
theorem read_binary_layout_rule (Aclass : List String)
    (entries : List (String × RawMat)) (tag : String) :
    (Aclass.get? 3 = none →
      readBinaryLayout Aclass entries =
        .ok (entries.map (fun p => (p.1, match p.2 with
          | .charM a => .strs (get_strings a)
          | .numM m => .numM m)))) ∧
    (Aclass.get? 3 = some tag → tag ≠ "binTrans" → tag ≠ "binNormal" →
      readBinaryLayout Aclass entries =
        .error "AssertionError: the orientation of the results is not recognized") ∧
    (Aclass.get? 3 = some "binTrans" →
      readBinaryLayout Aclass entries =
        .ok (entries.map (fun p => (p.1, match p.2 with
          | .charM a => .strs (get_strings a.transpose)
          | .numM m => .numM m.transpose)))) ∧
    (Aclass.get? 3 = some "binNormal" →
      readBinaryLayout Aclass entries =
        .ok (entries.map (fun p => (p.1, match p.2 with
          | .charM a => .strs (get_strings a)
          | .numM m => .numM m)))) := by
  refine ⟨?_, ?_, ?_, ?_⟩
  · intro h
    unfold readBinaryLayout decideTransposed
    rw [h]
    simp only [except_ok_bind]
    refine congrArg Except.ok (List.map_congr_left ?_)
    intro p _
    cases hp : p.2 <;> simp [normalizeEntry]
  · intro h h1 h2
    unfold readBinaryLayout decideTransposed
    rw [h]
    simp only [if_neg h1, if_neg h2, except_error_bind]
  · intro h
    unfold readBinaryLayout decideTransposed
    rw [h]
    simp only [if_true, except_ok_bind]
    refine congrArg Except.ok (List.map_congr_left ?_)
    intro p _
    cases hp : p.2 <;> simp [normalizeEntry]
  · intro h
    unfold readBinaryLayout decideTransposed
    rw [h]
    simp only [except_ok_bind]
    refine congrArg Except.ok (List.map_congr_left ?_)
    intro p _
    cases hp : p.2 <;> simp [normalizeEntry]

/-- Witness for C3 (amended) on a transposed file with one numeric and
one character matrix. -/
theorem read_binary_layout_rule_witness :
    readBinaryLayout ["Atrajectory", "1.1", "", "binTrans"]
        [("m", .numM [[1, 2], [3, 4]]), ("c", .charM [['a', 'b'], ['c', 'd']])] =
      .ok [("m", .numM ([[1, 2], [3, 4]] : Mat).transpose),
           ("c", .strs (get_strings ([['a', 'b'], ['c', 'd']]).transpose))] :=
  (read_binary_layout_rule ["Atrajectory", "1.1", "", "binTrans"]
    [("m", .numM [[1, 2], [3, 4]]), ("c", .charM [['a', 'b'], ['c', 'd']])]
    "unused").2.2.1 (by decide)

/-- C5: `readlin` computes `nu = ABCD.cols - nx` and `ny = ABCD.rows - nx`
and slices `A` as the top-left `nx`-by-`nx` block (empty if `nx = 0`),
`B` as the top-right `nx`-by-`nu` block (empty if `nx = 0` or `nu = 0`),
`C` as the bottom-left `ny`-by-`nx` block (empty if `nx = 0` or `ny = 0`),
`D` as the bottom-right `ny`-by-`nu` block (empty if `nu = 0` or
`ny = 0`), and partitions `xuyName` into the first `nx`, the next `nu`,
and the remaining entries. -/
theorem readlin_partition (ABCD : Mat) (rows cols nx : Nat)
    (xuyName : List String)
    (hrows : ABCD.length = rows)
    (hcols : (ABCD.headD []).length = cols)
    (hrect : ∀ r ∈ ABCD, r.length = cols)
    (hx : nx ≤ rows) (hxc : nx ≤ cols) :
    ((assembleLin ABCD nx xuyName).state_names = xuyName.take nx ∧
     (assembleLin ABCD nx xuyName).input_names =
       (xuyName.drop nx).take (cols - nx) ∧
     (assembleLin ABCD nx xuyName).output_names = xuyName.drop cols) ∧
    ((0 < nx → (assembleLin ABCD nx xuyName).A.length = nx ∧
        (∀ r ∈ (assembleLin ABCD nx xuyName).A, r.length = nx) ∧
        (∀ i j, i < nx → j < nx →
          matEntry (assembleLin ABCD nx xuyName).A i j = matEntry ABCD i j)) ∧
     (nx = 0 → (assembleLin ABCD nx xuyName).A = [[]])) ∧
    ((0 < nx → nx < cols → (assembleLin ABCD nx xuyName).B.length = nx ∧
        (∀ r ∈ (assembleLin ABCD nx xuyName).B, r.length = cols - nx) ∧
        (∀ i j, i < nx → j < cols - nx →
          matEntry (assembleLin ABCD nx xuyName).B i j =
            matEntry ABCD i (nx + j))) ∧
     (nx = 0 ∨ cols ≤ nx → (assembleLin ABCD nx xuyName).B = [[]])) ∧
    ((0 < nx → nx < rows →
        (assembleLin ABCD nx xuyName).C.length = rows - nx ∧
        (∀ r ∈ (assembleLin ABCD nx xuyName).C, r.length = nx) ∧
        (∀ i j, i < rows - nx → j < nx →
          matEntry (assembleLin ABCD nx xuyName).C i j =
            matEntry ABCD (nx + i) j)) ∧
     (nx = 0 ∨ rows ≤ nx → (assembleLin ABCD nx xuyName).C = [[]])) ∧
    ((nx < cols → nx < rows →
        (assembleLin ABCD nx xuyName).D.length = rows - nx ∧
        (∀ r ∈ (assembleLin ABCD nx xuyName).D, r.length = cols - nx) ∧
        (∀ i j, i < rows - nx → j < cols - nx →
          matEntry (assembleLin ABCD nx xuyName).D i j =
            matEntry ABCD (nx + i) (nx + j))) ∧
     (cols ≤ nx ∨ rows ≤ nx → (assembleLin ABCD nx xuyName).D = [[]])) := by
  have hrectT : ∀ r ∈ ABCD.take nx, r.length = cols :=
    fun r hr => hrect r (List.take_subset nx ABCD hr)
  have hrectD : ∀ r ∈ ABCD.drop nx, r.length = cols :=
    fun r hr => hrect r (List.drop_subset nx ABCD hr)
  refine ⟨⟨rfl, ?_, ?_⟩, ⟨?_, ?_⟩, ⟨?_, ?_⟩, ⟨?_, ?_⟩, ⟨?_, ?_⟩⟩
  · show (xuyName.take ((nx : Int) +
        (((ABCD.headD []).length : Int) - nx)).toNat).drop nx = _
    rw [hcols]
    have hidx : ((nx : Int) + ((cols : Int) - nx)).toNat = cols := by omega
    rw [hidx, List.drop_take]
  · show xuyName.drop ((nx : Int) +
        (((ABCD.headD []).length : Int) - nx)).toNat = _
    rw [hcols]
    have hidx : ((nx : Int) + ((cols : Int) - nx)).toNat = cols := by omega
    rw [hidx]
  -- A block
  · intro h0
    have hA : (assembleLin ABCD nx xuyName).A =
        (ABCD.take nx).map (fun r => r.take nx) := by
      unfold assembleLin
      simp only [if_pos h0]
    rw [hA]
    refine ⟨?_, ?_, ?_⟩
    · simp [hrows, Nat.min_eq_left hx]
    · intro r hr
      obtain ⟨x, hx', rfl⟩ := List.mem_map.mp hr
      simp [hrectT x hx', Nat.min_eq_left hxc]
    · intro i j hi hj
      unfold matEntry
      rw [List.get?_map, List.get?_take hi]
      cases hrow : ABCD.get? i with
      | none => rfl
      | some r => simp [List.getElem?_take_of_lt, hj]
  · intro h0
    unfold assembleLin
    simp [h0]
  -- B block
  · intro h0 hcu
    have hnu : (0 : Int) < ((ABCD.headD []).length : Int) - nx := by
      rw [hcols]; omega
    have hB : (assembleLin ABCD nx xuyName).B =
        (ABCD.take nx).map (fun r => r.drop nx) := by
      unfold assembleLin
      simp only [if_pos (And.intro h0 hnu)]
    rw [hB]
    refine ⟨?_, ?_, ?_⟩
    · simp [hrows, Nat.min_eq_left hx]
    · intro r hr
      obtain ⟨x, hx', rfl⟩ := List.mem_map.mp hr
      simp [hrectT x hx']
    · intro i j hi hj
      unfold matEntry
      rw [List.get?_map, List.get?_take hi]
      cases hrow : ABCD.get? i with
      | none => rfl
      | some r => simp [List.get?_drop]
  · intro h0
    have hnu : ¬ ((0 : Nat) < nx ∧
        (0 : Int) < ((ABCD.headD []).length : Int) - nx) := by
      rw [hcols]
      rcases h0 with h | h
      · intro hc; omega
      · intro hc; omega
    unfold assembleLin
    simp only [if_neg hnu]
  -- C block
  · intro h0 hcr
    have hny : (0 : Int) < ((ABCD.length : Int)) - nx := by
      rw [hrows]; omega
    have hC : (assembleLin ABCD nx xuyName).C =
        (ABCD.drop nx).map (fun r => r.take nx) := by
      unfold assembleLin
      simp only [if_pos (And.intro h0 hny)]
    rw [hC]
    refine ⟨?_, ?_, ?_⟩
    · simp [hrows]
    · intro r hr
      obtain ⟨x, hx', rfl⟩ := List.mem_map.mp hr
      simp [hrectD x hx', Nat.min_eq_left hxc]
    · intro i j hi hj
      unfold matEntry
      rw [List.get?_map, List.get?_drop]
      cases hrow : ABCD.get? (nx + i) with
      | none => rfl
      | some r => simp [List.getElem?_take_of_lt, hj]
  · intro h0
    have hny : ¬ ((0 : Nat) < nx ∧
        (0 : Int) < ((ABCD.length : Int)) - nx) := by
      rw [hrows]
      rcases h0 with h | h
      · intro hc; omega
      · intro hc; omega
    unfold assembleLin
    simp only [if_neg hny]
  -- D block
  · intro hcu hcr
    have hnu : (0 : Int) < ((ABCD.headD []).length : Int) - nx := by
      rw [hcols]; omega
    have hny : (0 : Int) < ((ABCD.length : Int)) - nx := by
      rw [hrows]; omega
    have hD : (assembleLin ABCD nx xuyName).D =
        (ABCD.drop nx).map (fun r => r.drop nx) := by
      unfold assembleLin
      simp only [if_pos (And.intro hnu hny)]
    rw [hD]
    refine ⟨?_, ?_, ?_⟩
    · simp [hrows]
    · intro r hr
      obtain ⟨x, hx', rfl⟩ := List.mem_map.mp hr
      simp [hrectD x hx']
    · intro i j hi hj
      unfold matEntry
      rw [List.get?_map, List.get?_drop]
      cases hrow : ABCD.get? (nx + i) with
      | none => rfl
      | some r => simp [List.get?_drop]
  · intro h0
    have hnd : ¬ ((0 : Int) < ((ABCD.headD []).length : Int) - nx ∧
        (0 : Int) < ((ABCD.length : Int)) - nx) := by
      rw [hcols, hrows]
      rcases h0 with h | h
      · intro hc; omega
      · intro hc; omega
    unfold assembleLin
    simp only [if_neg hnd]

/-- Witness for C5: an `ABCD` of shape (3,4) with `nx = 2` yields
`nu = 2`, `ny = 1`, `A` 2-by-2, `B` 2-by-2, `C` 1-by-2 and `D` 1-by-2,
and partitions a 5-entry `xuyName`. -/
theorem readlin_partition_witness :
    assembleLin [[1, 2, 3, 4], [5, 6, 7, 8], [9, 10, 11, 12]] 2
        ["x1", "x2", "u1", "u2", "y1"] =
      ⟨[[1, 2], [5, 6]], [[3, 4], [7, 8]], [[9, 10]], [[11, 12]],
       ["x1", "x2"], ["u1", "u2"], ["y1"]⟩ ∧
    (assembleLin [[1, 2, 3, 4], [5, 6, 7, 8], [9, 10, 11, 12]] 2
        ["x1", "x2", "u1", "u2", "y1"]).B.length = 2 ∧
    (∀ r ∈ (assembleLin [[1, 2, 3, 4], [5, 6, 7, 8], [9, 10, 11, 12]] 2
        ["x1", "x2", "u1", "u2", "y1"]).B, r.length = 4 - 2) := by
  have h := readlin_partition [[1, 2, 3, 4], [5, 6, 7, 8], [9, 10, 11, 12]]
    3 4 2 ["x1", "x2", "u1", "u2", "y1"] (by decide) (by decide)
    (by decide) (by decide) (by decide)
  exact ⟨by decide, (h.2.2.1.1 (by decide) (by decide)).1,
    (h.2.2.1.1 (by decide) (by decide)).2.1⟩

/-- C6, counterexample: on `"Resistance [Ohm|kOhm]"` the ohm-case
normalization (`unit.replace('Ohm', 'ohm')`) runs on the whole unit clause
BEFORE the `|` split, so the parser returns display unit `"kohm"` — not
`"kOhm"` as the claim states. -/
theorem parse_description_display_counterexample :
    (parse_description "Resistance [Ohm|kOhm]").display_unit = "kohm" ∧
    ("kohm" : String) ≠ "kOhm" :=
  ⟨by decide, by decide⟩

/-- C6 (amended): `"Capacitance [F]"` parses to unit `"F"`, display unit
`"F"`, description `"Capacitance"`; `"Resistance [Ohm|kOhm]"` normalizes
the ohm symbol throughout the unit clause — the `.replace` runs before the
`|` split — returning unit `"ohm"` and display unit `"kohm"`; `"."` in the
unit clause is replaced by explicit multiplication (`"Torque [N.m]"` gives
unit `"N*m"`); and when no `|` is present the display unit defaults to the
normalized unit. -/
theorem parse_description_rule :
    parse_description "Capacitance [F]" = ⟨"F", "F", "Capacitance"⟩ ∧
    parse_description "Resistance [Ohm|kOhm]" =
      ⟨"ohm", "kohm", "Resistance"⟩ ∧
    parse_description "Torque [N.m]" = ⟨"N*m", "N*m", "Torque"⟩ ∧
    (∀ d desc u, rsplitOnce '[' (rstripCharAll ']' d) = some (desc, u) →
      rsplitOnce '|' (pyReplace (pyReplace u "." "*") "Ohm" "ohm") = none →
      (parse_description d).display_unit = (parse_description d).unitStr) := by
  refine ⟨by decide, by decide, by decide, ?_⟩
  intro d desc u h1 h2
  simp only [parse_description, h1, h2]

/-- Witness for C6 (amended), applying the no-pipe default clause to
`"Pressure [Pa]"`. -/
theorem parse_description_rule_witness :
    (parse_description "Pressure [Pa]").display_unit =
      (parse_description "Pressure [Pa]").unitStr :=
  parse_description_rule.2.2.2 "Pressure [Pa]" "Pressure " "Pa"
    (by decide) (by decide)

/-- C7: the schema 1.0 branch of `readsim` never reaches the claimed
behavior: source line 376 (`times = traj[:, 0]*s._value`) evaluates the
name `s`, which is unbound — the import binds the unit only as `second` —
so the branch raises a `NameError` on every schema 1.0 file.  Under the
intended reading (the ratio of the unit bound as `second`), the branch
maps each name, in order, to a column of the single `data` matrix, with
the time column scaled, unknown dimension and display unit, and
`negated` always false. -/
theorem readsim_v10_unbound_name :
    readsimModel ["Atrajectory", "1.0"] 1 "T" (fun _ => .linear 1 "") [] [] []
        (fun _ => none) 0 ["Time", "x"] (some [[0, 5], [1, 7]]) =
      .error "NameError: name s is not defined" ∧
    "s" ∉ dymolaModuleBindings ∧ "second" ∈ dymolaModuleBindings ∧
    readsimV10Intended 2 ["Time", "x"] [[0, 5], [1, 7]] =
      some [("Time", ⟨⟨[0, 2], [0, 1], false⟩, none, none, ""⟩),
            ("x", ⟨⟨[0, 2], [5, 7], false⟩, none, none, ""⟩)] := by
  refine ⟨by decide, by decide, by decide, ?_⟩
  norm_num [readsimV10Intended, buildV10, matColN]

/-- C8, counterexample: on a text file with header count 1, one block
`float x (2,1)` and two commented numeric lines, the claim predicts the
2-by-1 matrix `{x: [[v1], [v2]]}`, but the float parser transposes the
parsed rows (`np.array([...]).T` in the source), yielding the 1-by-2
matrix `[[v1, v2]]`. -/
theorem loadtxt_float_counterexample :
    loadtxtModel 1 none ["header", "float x (2,1)", "1 # first", "-2 # second"] =
      .ok [("x", .floats [[1, -2]])] ∧
    TxtVal.floats [[1, -2]] ≠ TxtVal.floats [[1], [-2]] :=
  ⟨by decide, by decide⟩

/-- C8 (amended): the text scanner, given header line count 1 and one
block `float x (2,1)` followed by two numeric lines each carrying a
trailing `#`-delimited comment, returns the mapping `{x: [[v1, v2]]}` —
the two parsed data rows transposed into one row — with the comments
stripped before numeric parsing. -/
theorem loadtxt_float_block_rule :
    loadtxtModel 1 none ["header", "float x (2,1)", "3 # a", "-4 # b"] =
      .ok [("x", .floats [[3, -4]])] ∧
    stripComment "3 # a" = "3 " ∧
    fromstringRat (stripComment "3 # a") = [3] :=
  ⟨by decide, by decide, by decide⟩

end Dymola
